import Mathlib

/-!
Shallow embedding of the orchestration core of the `python-taskgroup-ai-agent`
repository: the task runner (`src/agent/base.py`), the service lifecycle and
metrics (`src/services/base.py`), the service registry
(`src/services/registry.py`) and the workflow orchestrator
(`src/services/orchestrator.py`), together with theorems settling the claims
about them.

Modelling conventions: wall-clock instants are abstract `Nat` parameters,
durations and response times are `Rat` (Python floats carry exact decimal
literals here), Python `None`-able fields are `Option`, exceptions are
`Except`/explicit outcome sums, and the concrete handlers/probes/hooks that
subclasses supply are oracle parameters.
-/

namespace TaskgroupAgent

/-- Service lifecycle status (`ServiceStatus` enum in `src/services/base.py`). -/
inductive ServiceStatus where
  | STOPPED
  | STARTING
  | RUNNING
  | STOPPING
  | ERROR
  | MAINTENANCE
deriving DecidableEq

/-- `ServiceMetrics` dataclass of `src/services/base.py`. -/
structure ServiceMetrics where
  total_requests : Nat := 0
  successful_requests : Nat := 0
  failed_requests : Nat := 0
  average_response_time : Rat := 0
  last_request_time : Option Nat := none
  uptime_seconds : Rat := 0
  memory_usage_mb : Rat := 0
deriving DecidableEq

/-- `ServiceMetrics.success_rate` property: `0.0` when `total_requests == 0`,
else `successful_requests / total_requests * 100`. -/
def ServiceMetrics.success_rate (m : ServiceMetrics) : Rat :=
  if m.total_requests = 0 then 0
  else ((m.successful_requests : Rat) / (m.total_requests : Rat)) * 100

/-- `ServiceMetrics.error_rate` property: `100.0 - success_rate`. -/
def ServiceMetrics.error_rate (m : ServiceMetrics) : Rat :=
  100 - m.success_rate

/-- The metrics-relevant mutable state of a `BaseService`: its
`service_info.metrics` together with the `_request_times` sample list. -/
structure MetricsState where
  metrics : ServiceMetrics := {}
  request_times : List Rat := []
deriving DecidableEq

/-- `BaseService._update_metrics`: bump the counters, stamp the request time,
append the sample, keep only the most recent 100 samples (one `pop(0)` when the
list exceeds 100), and recompute the average over the kept samples. -/
def update_metrics (s : MetricsState) (success : Bool) (execution_time : Rat)
    (now : Nat) : MetricsState :=
  let m := s.metrics
  let m := { m with
    total_requests := m.total_requests + 1
    last_request_time := some now }
  let m := if success then
      { m with successful_requests := m.successful_requests + 1 }
    else
      { m with failed_requests := m.failed_requests + 1 }
  let times := s.request_times ++ [execution_time]
  let times := if times.length > 100 then times.drop 1 else times
  { metrics := { m with
      average_response_time := times.sum / (times.length : Rat) }
    request_times := times }

/-- Metrics state after a whole history of completed requests, each recorded as
(success flag, execution time), starting from the dataclass defaults. -/
def apply_updates (l : List (Bool × Rat)) (now : Nat) : MetricsState :=
  l.foldl (fun s u => update_metrics s u.1 u.2 now) {}

/-- The most recent (at most) 100 entries of a list, the shape
`_request_times` maintains. -/
def recent_window (l : List Rat) : List Rat :=
  l.drop (l.length - 100)

lemma update_metrics_total (s : MetricsState) (b : Bool) (t : Rat) (now : Nat) :
    (update_metrics s b t now).metrics.total_requests =
      s.metrics.total_requests + 1 := by
  cases b <;> rfl

lemma update_metrics_successful (s : MetricsState) (b : Bool) (t : Rat)
    (now : Nat) :
    (update_metrics s b t now).metrics.successful_requests =
      s.metrics.successful_requests + (if b then 1 else 0) := by
  cases b <;> rfl

lemma update_metrics_failed (s : MetricsState) (b : Bool) (t : Rat)
    (now : Nat) :
    (update_metrics s b t now).metrics.failed_requests =
      s.metrics.failed_requests + (if b then 0 else 1) := by
  cases b <;> rfl

lemma update_metrics_times (s : MetricsState) (b : Bool) (t : Rat) (now : Nat) :
    (update_metrics s b t now).request_times =
      (if (s.request_times ++ [t]).length > 100 then
        (s.request_times ++ [t]).drop 1
      else s.request_times ++ [t]) := by
  cases b <;> rfl

lemma update_metrics_average (s : MetricsState) (b : Bool) (t : Rat)
    (now : Nat) :
    (update_metrics s b t now).metrics.average_response_time =
      (update_metrics s b t now).request_times.sum /
        ((update_metrics s b t now).request_times.length : Rat) := by
  cases b <;> rfl

lemma recent_window_snoc (xs : List Rat) (x : Rat) :
    recent_window (xs ++ [x]) =
      (if (recent_window xs ++ [x]).length > 100 then
        (recent_window xs ++ [x]).drop 1
      else recent_window xs ++ [x]) := by
  unfold recent_window
  rcases le_or_lt xs.length 99 with hle | hlt
  · have h0 : xs.length - 100 = 0 := by omega
    have hc : ¬ ((xs.drop (xs.length - 100) ++ [x]).length > 100) := by
      rw [h0, List.drop_zero, List.length_append, List.length_singleton]
      omega
    rw [if_neg hc, h0, List.drop_zero]
    have h1 : (xs ++ [x]).length - 100 = 0 := by
      rw [List.length_append, List.length_singleton]
      omega
    rw [h1, List.drop_zero]
  · have hlen : (xs.drop (xs.length - 100)).length = 100 := by
      rw [List.length_drop]
      omega
    have hc : (xs.drop (xs.length - 100) ++ [x]).length > 100 := by
      rw [List.length_append, hlen, List.length_singleton]
      omega
    rw [if_pos hc, List.drop_append_eq_append_drop, List.drop_append_eq_append_drop]
    have h2 : (xs ++ [x]).length - 100 - xs.length = 0 := by
      rw [List.length_append, List.length_singleton]
      omega
    have h3 : 1 - (xs.drop (xs.length - 100)).length = 0 := by
      rw [hlen]
    rw [h2, h3, List.drop_zero, List.drop_drop]
    congr 2
    rw [List.length_append, List.length_singleton]
    omega

lemma countP_bool_split (m : List (Bool × Rat)) :
    m.countP (fun u => u.1) + m.countP (fun u => !u.1) = m.length := by
  induction m with
  | nil => rfl
  | cons a t ih =>
      cases ha : a.1 <;> simp [List.countP_cons, ha] <;> omega

/-- Invariant carried through the whole metrics history: the counters count the
history, the sample list is the most recent min(n,100) execution times, and
(once any request completed) the average is the mean of that window. -/
lemma apply_updates_invariant (l : List (Bool × Rat)) (now : Nat) :
    (apply_updates l now).metrics.total_requests = l.length ∧
    (apply_updates l now).metrics.successful_requests = l.countP (fun u => u.1) ∧
    (apply_updates l now).metrics.failed_requests = l.countP (fun u => !u.1) ∧
    (apply_updates l now).request_times = recent_window (l.map Prod.snd) ∧
    (l ≠ [] → (apply_updates l now).metrics.average_response_time =
      (apply_updates l now).request_times.sum /
        ((apply_updates l now).request_times.length : Rat)) := by
  induction l using List.reverseRecOn with
  | nil =>
      refine ⟨rfl, rfl, rfl, rfl, ?_⟩
      intro h
      exact absurd rfl h
  | append_singleton xs u ih =>
      obtain ⟨iht, ihs, ihf, ihw, _⟩ := ih
      have hfold : apply_updates (xs ++ [u]) now =
          update_metrics (apply_updates xs now) u.1 u.2 now := by
        unfold apply_updates
        rw [List.foldl_append]
        rfl
      have hwin : recent_window ((xs ++ [u]).map Prod.snd) =
          (if (recent_window (xs.map Prod.snd) ++ [u.2]).length > 100 then
        (recent_window (xs.map Prod.snd) ++ [u.2]).drop 1
      else recent_window (xs.map Prod.snd) ++ [u.2]) := by
        rw [List.map_append]
        exact recent_window_snoc (xs.map Prod.snd) u.2
      refine ⟨?_, ?_, ?_, ?_, ?_⟩
      · rw [hfold, update_metrics_total, iht, List.length_append,
          List.length_singleton]
      · rw [hfold, update_metrics_successful, ihs, List.countP_append]
        cases hb : u.1 <;> simp [List.countP_cons, hb]
      · rw [hfold, update_metrics_failed, ihf, List.countP_append]
        cases hb : u.1 <;> simp [List.countP_cons, hb]
      · rw [hfold, update_metrics_times, ihw, hwin]
      · intro _
        rw [hfold]
        exact update_metrics_average (apply_updates xs now) u.1 u.2 now

/-- C9: after every completed request, `total_requests` equals
`successful_requests + failed_requests`, all three counters are
non-decreasing across the request, and `average_response_time` is the
arithmetic mean of the most recent min(n,100) execution times. -/
theorem metrics_counters_and_moving_average
    (l : List (Bool × Rat)) (u : Bool × Rat) (now : Nat) :
    (apply_updates (l ++ [u]) now).metrics.total_requests =
      (apply_updates (l ++ [u]) now).metrics.successful_requests +
        (apply_updates (l ++ [u]) now).metrics.failed_requests ∧
    (apply_updates l now).metrics.total_requests ≤
      (apply_updates (l ++ [u]) now).metrics.total_requests ∧
    (apply_updates l now).metrics.successful_requests ≤
      (apply_updates (l ++ [u]) now).metrics.successful_requests ∧
    (apply_updates l now).metrics.failed_requests ≤
      (apply_updates (l ++ [u]) now).metrics.failed_requests ∧
    (apply_updates (l ++ [u]) now).request_times =
      recent_window ((l ++ [u]).map Prod.snd) ∧
    (apply_updates (l ++ [u]) now).request_times.length =
      min ((l ++ [u]).length) 100 ∧
    (apply_updates (l ++ [u]) now).metrics.average_response_time =
      (apply_updates (l ++ [u]) now).request_times.sum /
        ((apply_updates (l ++ [u]) now).request_times.length : Rat) := by
  obtain ⟨ht, hs, hf, hw, ha⟩ := apply_updates_invariant (l ++ [u]) now
  obtain ⟨ht', hs', hf', _, _⟩ := apply_updates_invariant l now
  refine ⟨?_, ?_, ?_, ?_, hw, ?_, ha (by simp)⟩
  · rw [ht, hs, hf, ← countP_bool_split (l ++ [u])]
  · rw [ht, ht', List.length_append]
    omega
  · rw [hs, hs', List.countP_append]
    omega
  · rw [hf, hf', List.countP_append]
    omega
  · rw [hw]
    unfold recent_window
    rw [List.length_drop, List.length_map, List.length_append,
      List.length_singleton]
    omega

/-- C10: a metrics record that has seen zero requests reports
`success_rate = 0` and hence `error_rate = 100`. -/
theorem zero_requests_success_and_error_rate (m : ServiceMetrics)
    (h : m.total_requests = 0) :
    m.success_rate = 0 ∧ m.error_rate = 100 := by
  unfold ServiceMetrics.error_rate ServiceMetrics.success_rate
  rw [if_pos h]
  norm_num

/-- Concrete instance of the zero-request rate theorem at the default metrics
record. -/
theorem zero_requests_success_and_error_rate_witness :
    ({} : ServiceMetrics).total_requests = 0 ∧
      ({} : ServiceMetrics).success_rate = 0 ∧
        ({} : ServiceMetrics).error_rate = 100 :=
  ⟨rfl, zero_requests_success_and_error_rate {} rfl⟩

/-- Outcome of invoking an abstract subclass hook or probe: it returns a
value, or it raises an exception carrying a message. -/
inductive ProbeOutcome where
  | ok (healthy : Bool)
  | raises (msg : String)
deriving DecidableEq

/-- The lifecycle-relevant mutable state of a `BaseService`: its
`service_info.status`, the `_start_time`, `service_info.last_health_check`,
and the metrics state. -/
structure ServiceState where
  status : ServiceStatus := ServiceStatus.STOPPED
  start_time : Option Nat := none
  last_health_check : Option Nat := none
  metrics_state : MetricsState := {}
deriving DecidableEq

/-- `BaseService.start`: returns failure without change when not `STOPPED`;
otherwise moves through `STARTING`, runs `_on_start` (outcome `hook_ok`), and
ends `RUNNING` with the start time recorded, or `ERROR` on a hook exception
(start time untouched). -/
def service_start (hook_ok : Bool) (now : Nat) (s : ServiceState) :
    Bool × ServiceState :=
  if s.status ≠ ServiceStatus.STOPPED then
    (false, s)
  else if hook_ok then
    (true, { s with status := ServiceStatus.RUNNING, start_time := some now })
  else
    (false, { s with status := ServiceStatus.ERROR })

/-- `BaseService.stop`: no-op success when already `STOPPED`; otherwise runs
`_on_stop` and ends `STOPPED` with the start time cleared, or `ERROR` on a
hook exception. -/
def service_stop (hook_ok : Bool) (s : ServiceState) : Bool × ServiceState :=
  if s.status = ServiceStatus.STOPPED then
    (true, s)
  else if hook_ok then
    (true, { s with status := ServiceStatus.STOPPED, start_time := none })
  else
    (false, { s with status := ServiceStatus.ERROR })

/-- `BaseService.health_check`: run the `_health_check` probe inside a
try/except. When the probe returns, the check timestamp is recorded and a
`false` result while `RUNNING` moves the status to `ERROR`; when the probe
raises, the status becomes `ERROR` and `false` is returned (the timestamp
line is never reached). -/
def health_check (probe : ProbeOutcome) (now : Nat) (s : ServiceState) :
    Bool × ServiceState :=
  match probe with
  | ProbeOutcome.ok h =>
      let s1 := { s with last_health_check := some now }
      if h = false ∧ s1.status = ServiceStatus.RUNNING then
        (h, { s1 with status := ServiceStatus.ERROR })
      else
        (h, s1)
  | ProbeOutcome.raises _ =>
      (false, { s with status := ServiceStatus.ERROR })

/-- One externally invokable lifecycle operation on a `BaseService`, with the
behaviour of the subclass hook it triggers. -/
inductive ServiceOp where
  | start (hook_ok : Bool)
  | stop (hook_ok : Bool)
  | health (probe : ProbeOutcome)
deriving DecidableEq

/-- Apply a lifecycle operation to a service state, returning the Python
return value and the new state. -/
def apply_op (op : ServiceOp) (now : Nat) (s : ServiceState) :
    Bool × ServiceState :=
  match op with
  | ServiceOp.start h => service_start h now s
  | ServiceOp.stop h => service_stop h s
  | ServiceOp.health p => health_check p now s

/-- C8: `start` fails and leaves the state unchanged unless `STOPPED`; from
`STOPPED` it ends `RUNNING` with the start time recorded when the hook
succeeds, or returns failure ending in `ERROR` without recording a start
time when the hook raises; and no lifecycle operation ever makes the status
`RUNNING` except a successful `start` from `STOPPED`. -/
theorem service_start_transitions (hook_ok : Bool) (now : Nat)
    (s : ServiceState) :
    (s.status ≠ ServiceStatus.STOPPED →
      service_start hook_ok now s = (false, s)) ∧
    (s.status = ServiceStatus.STOPPED → hook_ok = true →
      service_start hook_ok now s =
        (true, { s with
          status := ServiceStatus.RUNNING, start_time := some now })) ∧
    (s.status = ServiceStatus.STOPPED → hook_ok = false →
      service_start hook_ok now s =
        (false, { s with status := ServiceStatus.ERROR }) ∧
      (service_start hook_ok now s).2.start_time = s.start_time) ∧
    (∀ op : ServiceOp,
      (apply_op op now s).2.status = ServiceStatus.RUNNING →
      s.status = ServiceStatus.RUNNING ∨
        (op = ServiceOp.start true ∧ s.status = ServiceStatus.STOPPED ∧
          (apply_op op now s).1 = true)) := by
  refine ⟨?_, ?_, ?_, ?_⟩
  · intro h
    rw [service_start, if_pos h]
  · intro h hk
    rw [service_start, if_neg (by rw [h]; simp), if_pos hk]
  · intro h hk
    subst hk
    rw [service_start, if_neg (by rw [h]; simp)]
    exact ⟨rfl, rfl⟩
  · intro op h
    cases op with
    | start hk =>
        by_cases hst : s.status = ServiceStatus.STOPPED
        · cases hk
          · simp [apply_op, service_start, hst] at h
          · refine Or.inr ⟨rfl, hst, ?_⟩
            simp [apply_op, service_start, hst]
        · simp [apply_op, service_start, hst] at h
          exact Or.inl h
    | stop hk =>
        by_cases hst : s.status = ServiceStatus.STOPPED
        · simp [apply_op, service_stop, hst] at h
        · cases hk <;> simp [apply_op, service_stop, hst] at h
    | health p =>
        cases p with
        | ok hv =>
            by_cases hc : hv = false ∧ s.status = ServiceStatus.RUNNING
            · simp [apply_op, health_check, hc.1, hc.2] at h
            · simp only [apply_op, health_check] at h
              rw [if_neg (by simpa using hc)] at h
              exact Or.inl h
        | raises m =>
            simp [apply_op, health_check] at h

/-- Concrete instance of the `start` transition theorem: starting a stopped
service with a succeeding hook at time 3 yields `RUNNING` with start time 3,
and the only operation producing `RUNNING` from `STOPPED` is that start. -/
theorem service_start_transitions_witness :
    service_start true 3 {} =
      (true, { ({} : ServiceState) with
        status := ServiceStatus.RUNNING, start_time := some 3 }) ∧
    (service_start true 3 {}).2.status = ServiceStatus.RUNNING :=
  ⟨(service_start_transitions true 3 {}).2.1 rfl rfl, by decide⟩

/-- C7 counterexample: the claim says the last-health-check timestamp is
recorded regardless of outcome, including a raising probe; but when the probe
raises, `health_check` leaves `last_health_check` untouched (here: still
`none`, not the current time 7), because the timestamp assignment sits after
the probe call inside the `try` block. -/
theorem health_check_raises_timestamp_not_recorded :
    (health_check (ProbeOutcome.raises "probe boom") 7
        { status := ServiceStatus.RUNNING }).2.last_health_check = none ∧
    ¬ ((health_check (ProbeOutcome.raises "probe boom") 7
        { status := ServiceStatus.RUNNING }).2.last_health_check = some 7) := by
  refine ⟨rfl, ?_⟩
  intro h
  exact Option.noConfusion h

/-- C7 amended: `health_check` records the last-health-check timestamp
whenever the probe returns (true or false); when the probe raises, the
timestamp is left untouched, the exception is swallowed, `false` is returned,
and the status becomes `ERROR`; and a `false` probe result while `RUNNING`
moves the status to `ERROR`. -/
theorem health_check_behaviour (probe : ProbeOutcome) (now : Nat)
    (s : ServiceState) :
    (∀ h : Bool, probe = ProbeOutcome.ok h →
      (health_check probe now s).2.last_health_check = some now ∧
      (health_check probe now s).1 = h) ∧
    (∀ m : String, probe = ProbeOutcome.raises m →
      (health_check probe now s).2.last_health_check = s.last_health_check ∧
      (health_check probe now s).1 = false ∧
      (health_check probe now s).2.status = ServiceStatus.ERROR) ∧
    (probe = ProbeOutcome.ok false → s.status = ServiceStatus.RUNNING →
      (health_check probe now s).2.status = ServiceStatus.ERROR) := by
  refine ⟨?_, ?_, ?_⟩
  · rintro h rfl
    by_cases hc : h = false ∧ s.status = ServiceStatus.RUNNING
    · simp [health_check, hc.1, hc.2]
    · simp only [health_check]
      rw [if_neg (by simpa using hc)]
      exact ⟨rfl, rfl⟩
  · rintro m rfl
    exact ⟨rfl, rfl, rfl⟩
  · rintro rfl hrun
    simp [health_check, hrun]

/-- Concrete instance of the amended health-check theorem: a probe that
returns false on a running service stamps the check time and moves the
status to `ERROR`. -/
theorem health_check_behaviour_witness :
    (health_check (ProbeOutcome.ok false) 5
        { status := ServiceStatus.RUNNING }).2.last_health_check = some 5 ∧
    (health_check (ProbeOutcome.ok false) 5
        { status := ServiceStatus.RUNNING }).2.status = ServiceStatus.ERROR :=
  ⟨((health_check_behaviour (ProbeOutcome.ok false) 5
      { status := ServiceStatus.RUNNING }).1 false rfl).1,
    (health_check_behaviour (ProbeOutcome.ok false) 5
      { status := ServiceStatus.RUNNING }).2.2 rfl rfl⟩

/-- `ServiceRequest` dataclass (fields the core consults; the payload is
opaque). -/
structure ServiceRequest where
  request_id : String
  operation : String := ""
  timeout : Rat := 30
  priority : Nat := 1
deriving DecidableEq

/-- `ServiceResponse` dataclass; `data` is the handler's opaque result. -/
structure ServiceResponse (α : Type) where
  request_id : String
  success : Bool
  data : Option α := none
  error_message : Option String := none
  error_code : Option String := none
  execution_time : Rat := 0
deriving DecidableEq

/-- The behaviour of the concrete `_process_request` handler on one request:
how long it runs before finishing, and whether it returns a value or raises.
`asyncio.wait_for` cuts it off when the duration exceeds the deadline. -/
structure HandlerRun (α : Type) where
  duration : Rat
  outcome : Except String α

/-- `BaseService.process_request`: run the handler under the deadline
`min(request.timeout, self.request_timeout)`; a run longer than the deadline
yields a `TIMEOUT`-coded failure response, a raising handler an
`INTERNAL_ERROR`-coded failure carrying the message, and a returning handler
a success response with its value and measured execution time. Every branch
updates the metrics exactly once; no branch raises. -/
def process_request {α : Type} (handler : HandlerRun α) (request_timeout : Rat)
    (req : ServiceRequest) (ms : MetricsState) (now : Nat) :
    ServiceResponse α × MetricsState :=
  let timeout := min req.timeout request_timeout
  if handler.duration > timeout then
    ({ request_id := req.request_id, success := false,
       error_message := some "Request timeout", error_code := some "TIMEOUT",
       execution_time := timeout },
     update_metrics ms false timeout now)
  else
    match handler.outcome with
    | Except.ok v =>
        ({ request_id := req.request_id, success := true, data := some v,
           execution_time := handler.duration },
         update_metrics ms true handler.duration now)
    | Except.error msg =>
        ({ request_id := req.request_id, success := false,
           error_message := some msg, error_code := some "INTERNAL_ERROR",
           execution_time := handler.duration },
         update_metrics ms false handler.duration now)

/-- C5: under the effective deadline `min(request.timeout, request_timeout)`,
a handler finishing in time with a value yields a success response carrying
the value and its execution time; exceeding the deadline yields a
`TIMEOUT`-coded failure; any other handler exception yields an
`INTERNAL_ERROR`-coded failure carrying the message; and in every case the
metrics are updated exactly once (total count up by one). -/
theorem process_request_cases {α : Type} (handler : HandlerRun α)
    (request_timeout : Rat) (req : ServiceRequest) (ms : MetricsState)
    (now : Nat) :
    (¬ handler.duration > min req.timeout request_timeout →
      (∀ v : α, handler.outcome = Except.ok v →
        (process_request handler request_timeout req ms now).1.success = true ∧
        (process_request handler request_timeout req ms now).1.data = some v ∧
        (process_request handler request_timeout req ms now).1.execution_time =
          handler.duration) ∧
      (∀ msg : String, handler.outcome = Except.error msg →
        (process_request handler request_timeout req ms now).1.success = false ∧
        (process_request handler request_timeout req ms now).1.error_code =
          some "INTERNAL_ERROR" ∧
        (process_request handler request_timeout req ms now).1.error_message =
          some msg)) ∧
    (handler.duration > min req.timeout request_timeout →
      (process_request handler request_timeout req ms now).1.success = false ∧
      (process_request handler request_timeout req ms now).1.error_code =
        some "TIMEOUT") ∧
    (process_request handler request_timeout req ms now).1.request_id =
      req.request_id ∧
    (process_request handler request_timeout req ms now).2.metrics.total_requests
      = ms.metrics.total_requests + 1 := by
  by_cases ht : handler.duration > min req.timeout request_timeout
  · refine ⟨fun h => absurd ht h, fun _ => ?_, ?_, ?_⟩
    · simp [process_request, ht]
    · simp [process_request, ht]
    · simp only [process_request, if_pos ht]
      exact update_metrics_total ms false (min req.timeout request_timeout) now
  · refine ⟨fun _ => ⟨?_, ?_⟩, fun h => absurd h ht, ?_, ?_⟩
    · rintro v hv
      simp [process_request, ht, hv]
    · rintro msg hm
      simp [process_request, ht, hm]
    · rcases ho : handler.outcome with v | msg <;>
        simp [process_request, ht, ho]
    · rcases ho : handler.outcome with v | msg <;>
        · simp only [process_request, if_neg ht, ho]
          exact update_metrics_total ms _ _ now

/-- Concrete instance of the request-processing theorem: a handler that
returns 42 after 2 time units against deadlines 30/30 succeeds with the
value and bumps the request counter of fresh metrics to 1. -/
theorem process_request_cases_witness :
    (process_request (α := Nat) ⟨2, Except.ok 42⟩ 30
        { request_id := "r1" } {} 9).1.success = true ∧
    (process_request (α := Nat) ⟨2, Except.ok 42⟩ 30
        { request_id := "r1" } {} 9).1.data = some 42 ∧
    (process_request (α := Nat) ⟨2, Except.ok 42⟩ 30
        { request_id := "r1" } {} 9).2.metrics.total_requests = 1 := by
  have h := process_request_cases (α := Nat) ⟨2, Except.ok 42⟩ 30
    { request_id := "r1" } {} 9
  have hin : ¬ (2 : Rat) > min (30 : Rat) 30 := by norm_num
  obtain ⟨hok, _, _, htot⟩ := h
  obtain ⟨hsucc, hdata, _⟩ := (hok hin).1 42 rfl
  exact ⟨hsucc, hdata, htot⟩

/-- `RegistryEvent` enum of `src/services/registry.py`. -/
inductive RegistryEvent where
  | SERVICE_REGISTERED
  | SERVICE_UNREGISTERED
  | SERVICE_STATUS_CHANGED
  | SERVICE_HEALTH_CHECK_FAILED
deriving DecidableEq

/-- A `BaseService` instance as the registry sees it: its identity, its
lifecycle state, and the behaviour of its `_on_start` hook if the registry
invokes `start()`. -/
structure RegisteredService where
  service_id : String
  name : String
  state : ServiceState := {}
  start_hook_ok : Bool := true
deriving DecidableEq

/-- `BaseService.is_running` property. -/
def RegisteredService.is_running (svc : RegisteredService) : Bool :=
  svc.state.status = ServiceStatus.RUNNING

/-- `BaseService.get_info`: refresh the uptime from the start time when the
service is running, then return the info snapshot (modelled as the service
state itself). -/
def get_info (now : Nat) (s : ServiceState) : ServiceState :=
  match s.start_time with
  | some t0 =>
      if s.status = ServiceStatus.RUNNING then
        { s with metrics_state := { s.metrics_state with
            metrics := { s.metrics_state.metrics with
              uptime_seconds := (now : Rat) - (t0 : Rat) } } }
      else s
  | none => s

/-- `ServiceRegistry` state: the `_services` dict, the `_service_info_cache`
dict, and the events emitted so far (delivery order). -/
structure RegistryState where
  services : List (String × RegisteredService) := []
  info_cache : List (String × ServiceState) := []
  events : List (RegistryEvent × String × String) := []
deriving DecidableEq

/-- `ServiceRegistry.register_service`: refuse a duplicate id untouched;
otherwise start the service when it is not running, refuse on a start
failure, and on success store the service, cache its info snapshot, emit a
`SERVICE_REGISTERED` event and succeed. The Python try/except means the call
returns a Bool and never raises. -/
def register_service (reg : RegistryState) (svc : RegisteredService)
    (now : Nat) : Bool × RegistryState × RegisteredService :=
  if (reg.services.lookup svc.service_id).isSome then
    (false, reg, svc)
  else
    let started :=
      if svc.is_running then (true, svc)
      else
        let r := service_start svc.start_hook_ok now svc.state
        (r.1, { svc with state := r.2 })
    if started.1 then
      (true,
        { services := reg.services ++ [(svc.service_id, started.2)]
          info_cache :=
            reg.info_cache ++ [(svc.service_id, get_info now started.2.state)]
          events := reg.events ++
            [(RegistryEvent.SERVICE_REGISTERED, svc.service_id, svc.name)] },
        started.2)
    else
      (false, reg, started.2)

/-- C6: registering a duplicate service id fails and leaves the registry —
entries, cache and emitted events — exactly as before; registering a fresh
id with a non-running service whose start fails returns failure and leaves
the service unregistered; otherwise registration stores the (started)
service, caches its info snapshot, emits a `SERVICE_REGISTERED` event and
succeeds. -/
theorem register_service_spec (reg : RegistryState) (svc : RegisteredService)
    (now : Nat) :
    ((reg.services.lookup svc.service_id).isSome →
      register_service reg svc now = (false, reg, svc) ∧
      (register_service reg svc now).2.1.services = reg.services ∧
      (register_service reg svc now).2.1.events = reg.events) ∧
    (reg.services.lookup svc.service_id = none →
      svc.is_running = false →
      (service_start svc.start_hook_ok now svc.state).1 = false →
      (register_service reg svc now).1 = false ∧
      (register_service reg svc now).2.1 = reg) ∧
    (reg.services.lookup svc.service_id = none →
      svc.is_running = true →
      (register_service reg svc now).1 = true ∧
      (register_service reg svc now).2.1.services =
        reg.services ++ [(svc.service_id, svc)] ∧
      (register_service reg svc now).2.1.info_cache =
        reg.info_cache ++ [(svc.service_id, get_info now svc.state)] ∧
      (register_service reg svc now).2.1.events = reg.events ++
        [(RegistryEvent.SERVICE_REGISTERED, svc.service_id, svc.name)]) ∧
    (reg.services.lookup svc.service_id = none →
      svc.is_running = false →
      (service_start svc.start_hook_ok now svc.state).1 = true →
      (register_service reg svc now).1 = true ∧
      (register_service reg svc now).2.1.services = reg.services ++
        [(svc.service_id,
          { svc with state := (service_start svc.start_hook_ok now svc.state).2 })] ∧
      (register_service reg svc now).2.1.events = reg.events ++
        [(RegistryEvent.SERVICE_REGISTERED, svc.service_id, svc.name)]) := by
  refine ⟨?_, ?_, ?_, ?_⟩
  · intro hdup
    rw [register_service, if_pos hdup]
    exact ⟨rfl, rfl, rfl⟩
  · intro hfresh hrun hfail
    simp [register_service, hfresh, hrun, hfail]
  · intro hfresh hrun
    simp [register_service, hfresh, hrun]
  · intro hfresh hrun hok
    simp [register_service, hfresh, hrun, hok]

/-- Concrete instance of the registration theorem: with service `a` already
registered, registering a second service carrying the same id fails and
leaves the registry with exactly the one prior entry and no new event. -/
theorem register_service_spec_witness :
    (([( "id-a", ({ service_id := "id-a", name := "a" } : RegisteredService))]
        : List (String × RegisteredService)).lookup "id-a").isSome ∧
    register_service
        { services := [("id-a", { service_id := "id-a", name := "a" })] }
        { service_id := "id-a", name := "a2" } 4 =
      (false,
        { services := [("id-a", { service_id := "id-a", name := "a" })] },
        { service_id := "id-a", name := "a2" }) := by
  refine ⟨by decide, ?_⟩
  exact (register_service_spec
    { services := [("id-a", { service_id := "id-a", name := "a" })] }
    { service_id := "id-a", name := "a2" } 4).1 (by decide) |>.1

/-- `Task` dataclass of `src/agent/base.py`; the `data` payload and the
result carried by `process_task` are opaque (type parameter `α`). -/
structure AgentTask (α : Type) where
  id : String
  name : String := ""
  completed_at : Option Nat := none
  result : Option α := none
  error : Option String := none
deriving DecidableEq

/-- `BaseAgent._execute_task`: run `process_task` under the semaphore; a
returned value is stored in `result`, a raised exception in `error`; either
way `completed_at` is stamped and the task stored in `_task_results`. -/
def execute_task {α : Type} (proc : AgentTask α → Except String α) (now : Nat)
    (t : AgentTask α) : AgentTask α :=
  match proc t with
  | Except.ok v => { t with result := some v, completed_at := some now }
  | Except.error e => { t with error := some e, completed_at := some now }

/-- The `_task_results` dict after executing a list of tasks, starting from a
given dict (modelled as a lookup function). -/
def run_tasks_from {α : Type} (proc : AgentTask α → Except String α)
    (now : Nat) (m : String → Option (AgentTask α)) :
    List (AgentTask α) → (String → Option (AgentTask α))
  | [] => m
  | t :: ts =>
      run_tasks_from proc now
        (fun x => if x = t.id then some (execute_task proc now t) else m x) ts

/-- `BaseAgent.run_tasks`: clear `_task_results`, execute every task of the
batch (each failure caught and stored per task), and return the mapping from
task id to completed task. -/
def run_tasks {α : Type} (proc : AgentTask α → Except String α) (now : Nat)
    (tasks : List (AgentTask α)) : String → Option (AgentTask α) :=
  run_tasks_from proc now (fun _ => none) tasks

lemma run_tasks_from_total {α : Type} (proc : AgentTask α → Except String α)
    (now : Nat) :
    ∀ (tasks : List (AgentTask α)) (m : String → Option (AgentTask α))
      (x : String),
      (∃ t', m x = some t') ∨ x ∈ tasks.map (fun t => t.id) →
      ∃ t', run_tasks_from proc now m tasks x = some t' := by
  intro tasks
  induction tasks with
  | nil =>
      intro m x h
      rcases h with h | h
      · exact h
      · exact absurd h (by simp)
  | cons t ts ih =>
      intro m x h
      apply ih
      by_cases hx : x = t.id
      · exact Or.inl ⟨execute_task proc now t, by simp [hx]⟩
      · rcases h with h | h
        · exact Or.inl (by simpa [hx] using h)
        · rcases (by simpa using h : x = t.id ∨ x ∈ ts.map (fun t => t.id)) with
            h' | h'
          · exact absurd h' hx
          · exact Or.inr h'

lemma run_tasks_from_provenance {α : Type}
    (proc : AgentTask α → Except String α) (now : Nat) :
    ∀ (tasks : List (AgentTask α)) (m : String → Option (AgentTask α))
      (x : String) (t' : AgentTask α),
      run_tasks_from proc now m tasks x = some t' →
      m x = some t' ∨
        ∃ t ∈ tasks, t.id = x ∧ t' = execute_task proc now t := by
  intro tasks
  induction tasks with
  | nil =>
      intro m x t' h
      exact Or.inl h
  | cons t ts ih =>
      intro m x t' h
      rcases ih _ x t' h with h' | ⟨t0, ht0, hid, heq⟩
      · by_cases hx : x = t.id
        · simp only [hx, if_pos rfl] at h'
          exact Or.inr ⟨t, by simp, hx.symm, by
            injection h' with h''
            exact h''.symm⟩
        · rw [if_neg hx] at h'
          exact Or.inl h'
      · exact Or.inr ⟨t0, by simp [ht0], hid, heq⟩

lemma execute_task_fresh_terminal {α : Type}
    (proc : AgentTask α → Except String α) (now : Nat) (t : AgentTask α)
    (hr : t.result = none) (he : t.error = none) :
    (execute_task proc now t).completed_at = some now ∧
    ((execute_task proc now t).result.isSome ↔
      (execute_task proc now t).error = none) ∧
    ((∃ v, proc t = Except.ok v ∧ (execute_task proc now t).result = some v ∧
        (execute_task proc now t).error = none) ∨
      (∃ e, proc t = Except.error e ∧
        (execute_task proc now t).error = some e ∧
        (execute_task proc now t).result = none)) := by
  cases hp : proc t with
  | ok v =>
      refine ⟨by simp [execute_task, hp], by simp [execute_task, hp, he], ?_⟩
      exact Or.inl ⟨v, rfl, by simp [execute_task, hp],
        by simp [execute_task, hp, he]⟩
  | error e =>
      refine ⟨by simp [execute_task, hp], by simp [execute_task, hp, hr], ?_⟩
      exact Or.inr ⟨e, rfl, by simp [execute_task, hp],
        by simp [execute_task, hp, hr]⟩

/-- C4: running a batch of fresh tasks returns a mapping in which every input
task's id is present, and every stored task is a completed input task:
`completed_at` is stamped and exactly one of `result`/`error` is populated —
`result` iff `process_task` returned, `error` iff it raised. One task's
failure never removes a sibling from the mapping. -/
theorem run_tasks_terminal_states {α : Type}
    (proc : AgentTask α → Except String α) (now : Nat)
    (tasks : List (AgentTask α))
    (hfresh : ∀ t ∈ tasks, t.result = none ∧ t.error = none) :
    (∀ t ∈ tasks, ∃ t', run_tasks proc now tasks t.id = some t') ∧
    (∀ (x : String) (t' : AgentTask α),
      run_tasks proc now tasks x = some t' →
      ∃ t ∈ tasks, t.id = x ∧ t' = execute_task proc now t ∧
        t'.completed_at = some now ∧
        (t'.result.isSome ↔ t'.error = none) ∧
        ¬ (t'.result.isSome ∧ t'.error.isSome) ∧
        ((∃ v, proc t = Except.ok v ∧ t'.result = some v ∧ t'.error = none) ∨
          (∃ e, proc t = Except.error e ∧ t'.error = some e ∧
            t'.result = none))) := by
  constructor
  · intro t ht
    exact run_tasks_from_total proc now tasks (fun _ => none) t.id
      (Or.inr (by simp; exact ⟨t, ht, rfl⟩))
  · intro x t' h
    rcases run_tasks_from_provenance proc now tasks (fun _ => none) x t' h with
      h' | ⟨t, ht, hid, heq⟩
    · exact absurd h' (by simp)
    · obtain ⟨hr, he⟩ := hfresh t ht
      obtain ⟨hc, hiff, hcase⟩ := execute_task_fresh_terminal proc now t hr he
      refine ⟨t, ht, hid, heq, ?_, ?_, ?_, ?_⟩
      · rw [heq]; exact hc
      · rw [heq]; exact hiff
      · rw [heq]
        intro hboth
        rw [(hiff.mp hboth.1 : (execute_task proc now t).error = none)] at hboth
        exact Option.noConfusion ((Option.isSome_iff_exists.mp hboth.2).choose_spec)
      · rw [heq]; exact hcase

/-- The two-task batch used to instantiate the task-runner theorem: one task
whose handler returns 7, one whose handler raises. -/
def sample_tasks : List (AgentTask Nat) :=
  [{ id := "a", name := "ok-task" }, { id := "b", name := "bad-task" }]

/-- Handler behaviour for the sample batch: task `a` returns 7, anything else
raises. -/
def sample_proc (t : AgentTask Nat) : Except String Nat :=
  if t.id = "a" then Except.ok 7 else Except.error "boom"

/-- Concrete instance of the task-runner theorem: in a batch where task `b`'s
handler raises, both `a` and `b` still appear in the returned mapping. -/
theorem run_tasks_terminal_states_witness :
    (run_tasks sample_proc 2 sample_tasks "a").isSome = true ∧
    (run_tasks sample_proc 2 sample_tasks "b").isSome = true := by
  have hfresh : ∀ t ∈ sample_tasks, t.result = none ∧ t.error = none := by
    decide
  have h := run_tasks_terminal_states sample_proc 2 sample_tasks hfresh
  exact ⟨Option.isSome_iff_exists.mpr
      (h.1 { id := "a", name := "ok-task" } (by decide)),
    Option.isSome_iff_exists.mpr
      (h.1 { id := "b", name := "bad-task" } (by decide))⟩

/-- `WorkflowStatus` enum of `src/services/orchestrator.py`. -/
inductive WorkflowStatus where
  | PENDING
  | RUNNING
  | COMPLETED
  | FAILED
  | CANCELLED
deriving DecidableEq

/-- `WorkflowStep` dataclass (the `data` payload is opaque and carried by the
response oracle instead). -/
structure WorkflowStep where
  step_id : String
  service_name : String := ""
  operation : String := ""
  depends_on : List String := []
  timeout : Rat := 30
  retry_count : Nat := 0
  parallel : Bool := true
deriving DecidableEq

deriving instance DecidableEq for Except

/-- Result of `OrchestratorService._execute_single_step` on one step: how many
`process_request` attempts were issued, the backoff sleeps (in seconds)
performed between attempts, and the final outcome — the successful response,
or the raised exception's message. -/
structure StepRun (α : Type) where
  attempts : Nat
  sleeps : List Nat
  outcome : Except String (ServiceResponse α)
deriving DecidableEq

/-- The body of the retry loop of `_execute_single_step`, structured on the
number of retries still allowed (`left = retry_count - failures so far`):
`respond j` is the response of the j-th `process_request` attempt
(1-indexed), `k` the number of failed attempts so far. A success returns the
response; a failure with no retries left re-raises; otherwise the loop
sleeps `1.0 * attempt-number` seconds and retries. -/
def run_attempts_go {α : Type} (respond : Nat → ServiceResponse α) :
    Nat → Nat → StepRun α
  | left, k =>
      let resp := respond (k + 1)
      if resp.success then
        ⟨k + 1, [], Except.ok resp⟩
      else
        match left with
        | 0 =>
            ⟨k + 1, [],
              Except.error ("Service request failed: " ++
                (resp.error_message.getD "None"))⟩
        | left' + 1 =>
            let rest := run_attempts_go respond left' (k + 1)
            ⟨rest.attempts, (k + 1) :: rest.sleeps, rest.outcome⟩

/-- The retry loop of `_execute_single_step` with the source's counters: `r`
is the step's `retry_count`, `k` the current number of failed attempts (the
Python `retry_count` variable), so `r - k` retries remain. -/
def run_attempts {α : Type} (respond : Nat → ServiceResponse α) (r k : Nat) :
    StepRun α :=
  run_attempts_go respond (r - k) k

/-- One unfolding of the retry loop, in the source's own terms: attempt
`k + 1`; on success stop, on failure re-raise when `retry_count < k + 1`
and otherwise sleep and continue. -/
lemma run_attempts_unfold {α : Type} (respond : Nat → ServiceResponse α)
    (r k : Nat) :
    run_attempts respond r k =
      (let resp := respond (k + 1)
      if resp.success then
        ⟨k + 1, [], Except.ok resp⟩
      else if r < k + 1 then
        ⟨k + 1, [],
          Except.error ("Service request failed: " ++
            (resp.error_message.getD "None"))⟩
      else
        let rest := run_attempts respond r (k + 1)
        ⟨rest.attempts, (k + 1) :: rest.sleeps, rest.outcome⟩) := by
  by_cases hs : (respond (k + 1)).success = true
  · cases hl : r - k with
    | zero => simp [run_attempts, run_attempts_go, hl, hs]
    | succ left' => simp [run_attempts, run_attempts_go, hl, hs]
  · cases hl : r - k with
    | zero =>
        have hr : r < k + 1 := by omega
        simp [run_attempts, run_attempts_go, hl, hs, hr]
    | succ left' =>
        have hr : ¬ r < k + 1 := by omega
        have hl' : r - (k + 1) = left' := by omega
        simp [run_attempts, run_attempts_go, hl, hs, hr, hl']

/-- `_execute_single_step` including the recording of a successful response
into `workflow.results` (a dict modelled as an association list): service
resolution failures raise before any attempt; otherwise the retry loop runs
and a success appends `(step_id, response)` to the results. -/
def execute_single_step {α : Type}
    (respond : WorkflowStep → Nat → ServiceResponse α)
    (find : String → Option RegisteredService) (step : WorkflowStep)
    (results : List (String × ServiceResponse α)) :
    StepRun α × List (String × ServiceResponse α) :=
  match find step.service_name with
  | none =>
      (⟨0, [], Except.error ("Service " ++ step.service_name ++ " not found")⟩,
        results)
  | some svc =>
      if svc.is_running then
        let run := run_attempts (respond step) step.retry_count 0
        match run.outcome with
        | Except.ok resp => (run, results ++ [(step.step_id, resp)])
        | Except.error _ => (run, results)
      else
        (⟨0, [],
          Except.error ("Service " ++ step.service_name ++ " is not running")⟩,
          results)

/-- Remove a step from the pending dict by id (`del pending_steps[id]`). -/
def remove_step (pending : List WorkflowStep) (id : String) :
    List WorkflowStep :=
  pending.filter (fun s => s.step_id ≠ id)

/-- The ready set of one loop iteration: pending steps whose every
`depends_on` id is already completed. -/
def ready_steps (completed : List String) (pending : List WorkflowStep) :
    List WorkflowStep :=
  pending.filter (fun s => s.depends_on.all (fun d => completed.contains d))

/-- The mutable data of `_execute_workflow_steps`: the completed-step ids,
the pending dict, the workflow's results and errors, plus a ghost trace
recording, for every step dispatch, the completed set at the moment the
dispatch was issued. -/
structure LoopData (α : Type) where
  completed : List String
  pending : List WorkflowStep
  results : List (String × ServiceResponse α)
  errors : List String
  trace : List (WorkflowStep × List String)
deriving DecidableEq

/-- Launch every step of a parallel batch (in list order, matching the
`asyncio.gather` call that starts one task per step): each one runs to
completion recording its own result, and the step/run pairs are collected for
the zip scan that follows. -/
def parallel_dispatch {α : Type}
    (respond : WorkflowStep → Nat → ServiceResponse α)
    (find : String → Option RegisteredService) :
    List WorkflowStep → List (String × ServiceResponse α) →
      List (WorkflowStep × StepRun α) × List (String × ServiceResponse α)
  | [], results => ([], results)
  | s :: rest, results =>
      let first := execute_single_step respond find s results
      let tail := parallel_dispatch respond find rest first.2
      ((s, first.1) :: tail.1, tail.2)

/-- The `zip(parallel_steps, results)` scan: the first failed sibling appends
`Step <id> failed: <e>` to the workflow errors and re-raises; each success
before it moves the step from pending to completed. -/
def parallel_collect {α : Type} :
    List (WorkflowStep × StepRun α) → List String → List WorkflowStep →
      List String → List String × List WorkflowStep × List String × Option String
  | [], completed, pending, errors => (completed, pending, errors, none)
  | (step, run) :: rest, completed, pending, errors =>
      match run.outcome with
      | Except.error msg =>
          (completed, pending,
            errors ++ ["Step " ++ step.step_id ++ " failed: " ++ msg],
            some msg)
      | Except.ok _ =>
          parallel_collect rest (completed ++ [step.step_id])
            (remove_step pending step.step_id) errors

/-- The sequential phase of one iteration: run each non-parallel ready step
in discovery order; a success moves it from pending to completed, a failure
appends the step error and re-raises without starting later steps. -/
def sequential_run {α : Type}
    (respond : WorkflowStep → Nat → ServiceResponse α)
    (find : String → Option RegisteredService) :
    List WorkflowStep → LoopData α → LoopData α × Option String
  | [], d => (d, none)
  | s :: rest, d =>
      let first := execute_single_step respond find s d.results
      let d1 := { d with
        results := first.2
        trace := d.trace ++ [(s, d.completed)] }
      match first.1.outcome with
      | Except.ok _ =>
          sequential_run respond find rest { d1 with
            completed := d1.completed ++ [s.step_id]
            pending := remove_step d1.pending s.step_id }
      | Except.error msg =>
          ({ d1 with
              errors := d1.errors ++
                ["Step " ++ s.step_id ++ " failed: " ++ msg] },
            some msg)

/-- The deadlock error message raised by `_execute_workflow_steps`. -/
def deadlock_message : String :=
  "Workflow deadlock detected: circular dependencies"

/-- One iteration of the `while pending_steps` loop, after the ready set has
been found non-empty: partition the ready set by the `parallel` flag, launch
the parallel batch and scan its results, then run the sequential steps.
Returns the updated data and the raised exception's message, if any. -/
def loop_iter {α : Type} (respond : WorkflowStep → Nat → ServiceResponse α)
    (find : String → Option RegisteredService) (d : LoopData α) :
    LoopData α × Option String :=
  let ready := ready_steps d.completed d.pending
  let par := ready.filter (fun s => s.parallel)
  let seqs := ready.filter (fun s => !s.parallel)
  let disp := parallel_dispatch respond find par d.results
  let d1 := { d with
    results := disp.2
    trace := d.trace ++ par.map (fun s => (s, d.completed)) }
  let coll := parallel_collect disp.1 d1.completed d1.pending d1.errors
  let d2 := { d1 with
    completed := coll.1
    pending := coll.2.1
    errors := coll.2.2.1 }
  match coll.2.2.2 with
  | some msg => (d2, some msg)
  | none => sequential_run respond find seqs d2

/-- The `while pending_steps` loop of `_execute_workflow_steps`, with explicit
fuel (the Python loop is unbounded; the fuel-sufficiency theorem shows
`pending.length + 1` iterations always finish). Returns `none` on fuel
exhaustion, otherwise the final data and the raised exception's message if
the iteration raised (`none` when all steps completed). -/
def workflow_loop {α : Type}
    (respond : WorkflowStep → Nat → ServiceResponse α)
    (find : String → Option RegisteredService) :
    Nat → LoopData α → Option (LoopData α × Option String)
  | 0, _ => none
  | Nat.succ fuel, d =>
      if d.pending = [] then some (d, none)
      else if ready_steps d.completed d.pending = [] then
        some (d, some deadlock_message)
      else
        let it := loop_iter respond find d
        match it.2 with
        | some msg => some (it.1, some msg)
        | none => workflow_loop respond find fuel it.1

/-- Insert a step into the pending dict under its id (overwriting a previous
entry with the same id, as the `{step.step_id: step for step in steps}`
comprehension does). -/
def upsert_step (l : List WorkflowStep) (s : WorkflowStep) :
    List WorkflowStep :=
  if l.any (fun t => t.step_id = s.step_id) then
    l.map (fun t => if t.step_id = s.step_id then s else t)
  else l ++ [s]

/-- The initial pending dict `{step.step_id: step for step in steps}`. -/
def steps_dict (steps : List WorkflowStep) : List WorkflowStep :=
  steps.foldl upsert_step []

/-- `WorkflowExecution` dataclass. -/
structure WorkflowExecution (α : Type) where
  workflow_id : String
  steps : List WorkflowStep
  status : WorkflowStatus := WorkflowStatus.PENDING
  results : List (String × ServiceResponse α) := []
  errors : List String := []
  started_at : Option Nat := none
  completed_at : Option Nat := none

/-- `OrchestratorService._execute_workflow_task`: mark the workflow RUNNING,
run the step loop, and finish `COMPLETED`, or `FAILED` with the raised
error's message appended to the workflow's error list. Returns the updated
workflow together with the ghost dispatch trace. (The fuel
`steps_dict.length + 1` is justified by the fuel-sufficiency theorem; the
fuel-out branch is unreachable.) -/
def execute_workflow_task {α : Type}
    (respond : WorkflowStep → Nat → ServiceResponse α)
    (find : String → Option RegisteredService) (now : Nat)
    (wf : WorkflowExecution α) :
    WorkflowExecution α × List (WorkflowStep × List String) :=
  let d0 : LoopData α :=
    ⟨[], steps_dict wf.steps, wf.results, wf.errors, []⟩
  match workflow_loop respond find (d0.pending.length + 1) d0 with
  | none => (wf, [])
  | some (d, none) =>
      ({ wf with
          status := WorkflowStatus.COMPLETED
          results := d.results
          errors := d.errors
          started_at := some now
          completed_at := some now }, d.trace)
  | some (d, some e) =>
      ({ wf with
          status := WorkflowStatus.FAILED
          results := d.results
          errors := d.errors ++ [e]
          started_at := some now
          completed_at := some now }, d.trace)

lemma run_attempts_spec {α : Type} (respond : Nat → ServiceResponse α)
    (r : Nat) :
    ∀ (n k : Nat), n = r - k → k ≤ r →
      (k + 1 ≤ (run_attempts respond r k).attempts ∧
        (run_attempts respond r k).attempts ≤ r + 1) ∧
      (run_attempts respond r k).sleeps =
        List.range' (k + 1) ((run_attempts respond r k).attempts - 1 - k) ∧
      (∀ resp, (run_attempts respond r k).outcome = Except.ok resp →
        resp = respond (run_attempts respond r k).attempts ∧
        resp.success = true ∧
        ∀ j, k + 1 ≤ j → j < (run_attempts respond r k).attempts →
          (respond j).success = false) ∧
      ((∃ m, (run_attempts respond r k).outcome = Except.error m) →
        (run_attempts respond r k).attempts = r + 1 ∧
        ∀ j, k + 1 ≤ j → j ≤ r + 1 → (respond j).success = false) := by
  intro n
  induction n with
  | zero =>
      intro k hn hk
      have hkr : k = r := by omega
      by_cases hs : (respond (k + 1)).success = true
      · rw [run_attempts_unfold]
        simp only [hs, if_true]
        refine ⟨⟨le_refl _, by omega⟩, by simp, ?_, ?_⟩
        · intro resp hresp
          injection hresp with h
          exact ⟨h.symm, h ▸ hs, fun j hj1 hj2 => absurd (lt_of_lt_of_le hj2 hj1)
            (lt_irrefl j)⟩
        · rintro ⟨m, hm⟩
          exact absurd hm (by simp)
      · have hlt : r < k + 1 := by omega
        rw [run_attempts_unfold]
        simp only [hs, if_false, if_pos hlt, Bool.false_eq_true]
        refine ⟨⟨le_refl _, by omega⟩, by simp, ?_, ?_⟩
        · intro resp hresp
          exact absurd hresp (by simp)
        · rintro ⟨m, _⟩
          refine ⟨by omega, fun j hj1 hj2 => ?_⟩
          have : j = k + 1 := by omega
          subst this
          exact Bool.not_eq_true _ |>.mp hs
  | succ n ih =>
      intro k hn hk
      by_cases hs : (respond (k + 1)).success = true
      · rw [run_attempts_unfold]
        simp only [hs, if_true]
        refine ⟨⟨le_refl _, by omega⟩, by simp, ?_, ?_⟩
        · intro resp hresp
          injection hresp with h
          exact ⟨h.symm, h ▸ hs, fun j hj1 hj2 => absurd (lt_of_lt_of_le hj2 hj1)
            (lt_irrefl j)⟩
        · rintro ⟨m, hm⟩
          exact absurd hm (by simp)
      · have hle : ¬ r < k + 1 := by omega
        rw [run_attempts_unfold]
        simp only [hs, if_false, if_neg hle, Bool.false_eq_true]
        obtain ⟨⟨iha1, iha2⟩, ihs, ihok, iherr⟩ :=
          ih (k + 1) (by omega) (by omega)
        refine ⟨⟨by omega, iha2⟩, ?_, ?_, ?_⟩
        · simp only [ihs]
          have harith :
              (run_attempts respond r (k + 1)).attempts - 1 - k =
                ((run_attempts respond r (k + 1)).attempts - 1 - (k + 1)) + 1 := by
            omega
          rw [harith, List.range'_succ]
        · intro resp hresp
          obtain ⟨h1, h2, h3⟩ := ihok resp hresp
          refine ⟨h1, h2, fun j hj1 hj2 => ?_⟩
          rcases eq_or_lt_of_le hj1 with hj | hj
          · rw [← hj]
            exact Bool.not_eq_true _ |>.mp hs
          · exact h3 j (by omega) hj2
        · rintro ⟨m, hm⟩
          obtain ⟨h1, h2⟩ := iherr ⟨m, hm⟩
          refine ⟨h1, fun j hj1 hj2 => ?_⟩
          rcases eq_or_lt_of_le hj1 with hj | hj
          · rw [← hj]
            exact Bool.not_eq_true _ |>.mp hs
          · exact h2 j (by omega) hj2

/-- C3: the retry loop issues between 1 and `retry_count + 1` attempts; after
each failed attempt except the last it sleeps `1 × attempt-number` seconds
(so the sleeps are exactly `[1, …, attempts-1]`); it raises only once all
`retry_count + 1` attempts have failed; a success on attempt
`k ≤ retry_count + 1` means attempts 1..k-1 failed, attempt k's response is
returned and, at the step level, recorded into the workflow's results under
the step id. -/
theorem single_step_retry_budget {α : Type}
    (respond : Nat → ServiceResponse α) (r : Nat) :
    (1 ≤ (run_attempts respond r 0).attempts ∧
      (run_attempts respond r 0).attempts ≤ r + 1) ∧
    (run_attempts respond r 0).sleeps =
      List.range' 1 ((run_attempts respond r 0).attempts - 1) ∧
    (∀ resp, (run_attempts respond r 0).outcome = Except.ok resp →
      resp = respond (run_attempts respond r 0).attempts ∧
      resp.success = true ∧
      ∀ j, 1 ≤ j → j < (run_attempts respond r 0).attempts →
        (respond j).success = false) ∧
    ((∃ m, (run_attempts respond r 0).outcome = Except.error m) →
      (run_attempts respond r 0).attempts = r + 1 ∧
      ∀ j, 1 ≤ j → j ≤ r + 1 → (respond j).success = false) ∧
    (∀ (respond2 : WorkflowStep → Nat → ServiceResponse α)
      (find : String → Option RegisteredService) (step : WorkflowStep)
      (results : List (String × ServiceResponse α))
      (svc : RegisteredService) (resp : ServiceResponse α),
      find step.service_name = some svc → svc.is_running = true →
      respond2 step = respond → step.retry_count = r →
      (run_attempts respond r 0).outcome = Except.ok resp →
      execute_single_step respond2 find step results =
        (run_attempts respond r 0, results ++ [(step.step_id, resp)])) := by
  obtain ⟨⟨h1, h2⟩, hsl, hok, herr⟩ :=
    run_attempts_spec respond r (r - 0) 0 rfl (Nat.zero_le r)
  refine ⟨⟨h1, h2⟩, by simpa using hsl, hok, herr, ?_⟩
  intro respond2 find step results svc resp hfind hrun hresp hr hout
  rw [execute_single_step, hfind]
  simp only [hrun, if_true, hresp, hr, hout]

/-- Concrete instance of the retry theorem: with `retry_count = 2` and a
handler failing on attempts 1 and 2 then succeeding on attempt 3, the loop
makes 3 attempts, sleeps 1 then 2 seconds, and succeeds. -/
theorem single_step_retry_budget_witness :
    (run_attempts
        (fun j => if j ≤ 2 then
          ({ request_id := "q", success := false } : ServiceResponse Nat)
        else { request_id := "q", success := true, data := some 5 }) 2 0).attempts
      = 3 ∧
    (run_attempts
        (fun j => if j ≤ 2 then
          ({ request_id := "q", success := false } : ServiceResponse Nat)
        else { request_id := "q", success := true, data := some 5 }) 2 0).sleeps
      = [1, 2] ∧
    (run_attempts
        (fun j => if j ≤ 2 then
          ({ request_id := "q", success := false } : ServiceResponse Nat)
        else { request_id := "q", success := true, data := some 5 }) 2 0).sleeps
      = List.range' 1
        ((run_attempts
          (fun j => if j ≤ 2 then
            ({ request_id := "q", success := false } : ServiceResponse Nat)
          else { request_id := "q", success := true, data := some 5 }) 2
            0).attempts - 1) := by
  have h1 : run_attempts
      (fun j => if j ≤ 2 then
        ({ request_id := "q", success := false } : ServiceResponse Nat)
      else { request_id := "q", success := true, data := some 5 }) 2 0 =
      ⟨3, [1, 2],
        Except.ok { request_id := "q", success := true, data := some 5 }⟩ := by
    rw [run_attempts_unfold]
    norm_num
    rw [run_attempts_unfold]
    norm_num
    rw [run_attempts_unfold]
    norm_num
  refine ⟨by rw [h1], by rw [h1], ?_⟩
  exact (single_step_retry_budget
    (fun j => if j ≤ 2 then
      ({ request_id := "q", success := false } : ServiceResponse Nat)
    else { request_id := "q", success := true, data := some 5 }) 2).2.1

/-- A dispatch record is dependency-safe when every dependency of the
dispatched step was already in the completed set at dispatch time. -/
def trace_ok (q : WorkflowStep × List String) : Prop :=
  ∀ dep ∈ q.1.depends_on, dep ∈ q.2

lemma length_filter_lt {β : Type} (p : β → Bool) (l : List β) (x : β)
    (hx : x ∈ l) (hpx : p x = false) : (l.filter p).length < l.length := by
  induction l with
  | nil => exact absurd hx (List.not_mem_nil x)
  | cons a t ih =>
      rcases List.mem_cons.mp hx with rfl | hmem
      · simp only [List.filter_cons, hpx, Bool.false_eq_true, if_false,
          List.length_cons]
        exact Nat.lt_succ_of_le (List.length_filter_le p t)
      · cases pa : p a
        · simp only [List.filter_cons, pa, Bool.false_eq_true, if_false,
            List.length_cons]
          exact Nat.lt_succ_of_le (List.length_filter_le p t)
        · simp only [List.filter_cons, pa, if_true, List.length_cons]
          exact Nat.succ_lt_succ (ih hmem)

lemma remove_step_length_le (pending : List WorkflowStep) (id : String) :
    (remove_step pending id).length ≤ pending.length :=
  List.length_filter_le _ pending

lemma remove_step_length_lt (pending : List WorkflowStep) (s : WorkflowStep)
    (hs : s ∈ pending) :
    (remove_step pending s.step_id).length < pending.length := by
  apply length_filter_lt _ pending s hs
  simp

lemma ready_steps_mem (completed : List String) (pending : List WorkflowStep)
    (s : WorkflowStep) (hs : s ∈ ready_steps completed pending) :
    s ∈ pending ∧ ∀ dep ∈ s.depends_on, dep ∈ completed := by
  obtain ⟨hmem, hall⟩ := List.mem_filter.mp hs
  refine ⟨hmem, fun dep hdep => ?_⟩
  have := List.all_eq_true.mp hall dep hdep
  exact List.elem_iff.mp this

lemma parallel_dispatch_fst {α : Type}
    (respond : WorkflowStep → Nat → ServiceResponse α)
    (find : String → Option RegisteredService) :
    ∀ (steps : List WorkflowStep) (results : List (String × ServiceResponse α)),
      (parallel_dispatch respond find steps results).1.map Prod.fst = steps := by
  intro steps
  induction steps with
  | nil => intro results; rfl
  | cons s rest ih =>
      intro results
      simp only [parallel_dispatch, List.map_cons]
      rw [ih]

lemma parallel_collect_pending_le {α : Type} :
    ∀ (runs : List (WorkflowStep × StepRun α)) (c : List String)
      (p : List WorkflowStep) (e : List String),
      (parallel_collect runs c p e).2.1.length ≤ p.length := by
  intro runs
  induction runs with
  | nil => intro c p e; exact le_refl _
  | cons pr rest ih =>
      intro c p e
      obtain ⟨step, run⟩ := pr
      cases ho : run.outcome with
      | error msg =>
          simp only [parallel_collect, ho]
          exact le_refl _
      | ok resp =>
          simp only [parallel_collect, ho]
          exact le_trans (ih _ _ _) (remove_step_length_le p step.step_id)

lemma parallel_collect_completed_append {α : Type} :
    ∀ (runs : List (WorkflowStep × StepRun α)) (c : List String)
      (p : List WorkflowStep) (e : List String),
      ∃ t, (parallel_collect runs c p e).1 = c ++ t := by
  intro runs
  induction runs with
  | nil => intro c p e; exact ⟨[], by simp [parallel_collect]⟩
  | cons pr rest ih =>
      intro c p e
      obtain ⟨step, run⟩ := pr
      cases ho : run.outcome with
      | error msg => exact ⟨[], by simp [parallel_collect, ho]⟩
      | ok resp =>
          obtain ⟨t, ht⟩ := ih (c ++ [step.step_id]) (remove_step p step.step_id) e
          exact ⟨[step.step_id] ++ t, by
            simp only [parallel_collect, ho]
            rw [ht, List.append_assoc]⟩

lemma parallel_collect_strict {α : Type} (step : WorkflowStep)
    (run : StepRun α) (rest : List (WorkflowStep × StepRun α)) (c : List String)
    (p : List WorkflowStep) (e : List String)
    (hraise : (parallel_collect ((step, run) :: rest) c p e).2.2.2 = none)
    (hs : step ∈ p) :
    (parallel_collect ((step, run) :: rest) c p e).2.1.length < p.length := by
  cases ho : run.outcome with
  | error msg =>
      rw [parallel_collect, ho] at hraise
      exact absurd hraise (by simp)
  | ok resp =>
      simp only [parallel_collect, ho]
      exact lt_of_le_of_lt (parallel_collect_pending_le rest _ _ _)
        (remove_step_length_lt p step hs)

lemma sequential_run_pending_le {α : Type}
    (respond : WorkflowStep → Nat → ServiceResponse α)
    (find : String → Option RegisteredService) :
    ∀ (steps : List WorkflowStep) (d : LoopData α),
      (sequential_run respond find steps d).1.pending.length ≤
        d.pending.length := by
  intro steps
  induction steps with
  | nil => intro d; exact le_refl _
  | cons s rest ih =>
      intro d
      cases ho : (execute_single_step respond find s d.results).1.outcome with
      | ok resp =>
          simp only [sequential_run, ho]
          exact le_trans (ih _) (remove_step_length_le d.pending s.step_id)
      | error msg =>
          simp only [sequential_run, ho]
          exact le_refl _

lemma sequential_run_strict {α : Type}
    (respond : WorkflowStep → Nat → ServiceResponse α)
    (find : String → Option RegisteredService) (s : WorkflowStep)
    (rest : List WorkflowStep) (d : LoopData α)
    (hraise : (sequential_run respond find (s :: rest) d).2 = none)
    (hs : s ∈ d.pending) :
    (sequential_run respond find (s :: rest) d).1.pending.length <
      d.pending.length := by
  cases ho : (execute_single_step respond find s d.results).1.outcome with
  | ok resp =>
      simp only [sequential_run, ho]
      exact lt_of_le_of_lt (sequential_run_pending_le respond find rest _)
        (remove_step_length_lt d.pending s hs)
  | error msg =>
      rw [sequential_run, ho] at hraise
      exact absurd hraise (by simp)

lemma sequential_run_trace {α : Type}
    (respond : WorkflowStep → Nat → ServiceResponse α)
    (find : String → Option RegisteredService) :
    ∀ (steps : List WorkflowStep) (d : LoopData α),
      (∀ q ∈ d.trace, trace_ok q) →
      (∀ s ∈ steps, ∀ dep ∈ s.depends_on, dep ∈ d.completed) →
      ∀ q ∈ (sequential_run respond find steps d).1.trace, trace_ok q := by
  intro steps
  induction steps with
  | nil => intro d htr _ q hq; exact htr q hq
  | cons s rest ih =>
      intro d htr hdeps q hq
      have hnew : ∀ q ∈ d.trace ++ [(s, d.completed)], trace_ok q := by
        intro q hq
        rcases List.mem_append.mp hq with h | h
        · exact htr q h
        · rcases List.mem_singleton.mp h with rfl
          exact fun dep hdep => hdeps s (by simp) dep hdep
      cases ho : (execute_single_step respond find s d.results).1.outcome with
      | ok resp =>
          simp only [sequential_run, ho] at hq
          refine ih _ hnew ?_ q hq
          intro s' hs' dep hdep
          exact List.mem_append_left _ (hdeps s' (by simp [hs']) dep hdep)
      | error msg =>
          simp only [sequential_run, ho] at hq
          exact hnew q hq

lemma loop_iter_progress {α : Type}
    (respond : WorkflowStep → Nat → ServiceResponse α)
    (find : String → Option RegisteredService) (d : LoopData α)
    (res : LoopData α × Option String)
    (hres : loop_iter respond find d = res) (hnone : res.2 = none)
    (hready : ready_steps d.completed d.pending ≠ []) :
    res.1.pending.length < d.pending.length := by
  simp only [loop_iter] at hres
  split at hres
  · subst hres
    exact absurd hnone (by simp)
  · subst hres
    by_cases hpar :
        (ready_steps d.completed d.pending).filter (fun s => s.parallel) = []
    · rw [hpar] at hnone ⊢
      simp only [parallel_dispatch, parallel_collect, List.map_nil,
        List.append_nil] at hnone ⊢
      obtain ⟨s0, rest0, hready_eq⟩ := List.exists_cons_of_ne_nil hready
      have hs0 : s0 ∈ ready_steps d.completed d.pending := by
        rw [hready_eq]; exact List.mem_cons_self s0 rest0
      cases hp0 : s0.parallel
      · have hs0seq : s0 ∈ (ready_steps d.completed d.pending).filter
            (fun s => !s.parallel) :=
          List.mem_filter.mpr ⟨hs0, by rw [hp0]; rfl⟩
        obtain ⟨s1, r1, hseqs⟩ := List.exists_cons_of_ne_nil
          (List.ne_nil_of_mem hs0seq)
        rw [hseqs] at hnone ⊢
        have hs1 : s1 ∈ d.pending := by
          have : s1 ∈ (ready_steps d.completed d.pending).filter
              (fun s => !s.parallel) := by
            rw [hseqs]; exact List.mem_cons_self s1 r1
          exact (ready_steps_mem _ _ s1 (List.mem_filter.mp this).1).1
        exact sequential_run_strict respond find s1 r1 _ hnone hs1
      · have : s0 ∈ (ready_steps d.completed d.pending).filter
            (fun s => s.parallel) := List.mem_filter.mpr ⟨hs0, hp0⟩
        rw [hpar] at this
        exact absurd this (List.not_mem_nil s0)
    · obtain ⟨pr0, drest, hdisp⟩ := List.exists_cons_of_ne_nil
        (show (parallel_dispatch respond find
            ((ready_steps d.completed d.pending).filter (fun s => s.parallel))
            d.results).1 ≠ [] by
          intro hnil
          have := parallel_dispatch_fst respond find
            ((ready_steps d.completed d.pending).filter (fun s => s.parallel))
            d.results
          rw [hnil] at this
          exact hpar this.symm)
      rename_i heq
      rw [hdisp] at heq ⊢
      have hp0 : pr0.1 ∈ d.pending := by
        have hin : pr0.1 ∈ ((pr0 :: drest).map Prod.fst) := by
          exact List.mem_map_of_mem Prod.fst (List.mem_cons_self pr0 drest)
        have hmap := parallel_dispatch_fst respond find
          ((ready_steps d.completed d.pending).filter (fun s => s.parallel))
          d.results
        rw [hdisp] at hmap
        rw [hmap] at hin
        exact (ready_steps_mem _ _ pr0.1 (List.mem_filter.mp hin).1).1
      exact lt_of_le_of_lt
        (sequential_run_pending_le respond find _ _)
        (parallel_collect_strict pr0.1 pr0.2 drest _ _ _ heq hp0)

lemma loop_iter_trace {α : Type}
    (respond : WorkflowStep → Nat → ServiceResponse α)
    (find : String → Option RegisteredService) (d : LoopData α)
    (res : LoopData α × Option String)
    (hres : loop_iter respond find d = res)
    (htr : ∀ q ∈ d.trace, trace_ok q) :
    ∀ q ∈ res.1.trace, trace_ok q := by
  have hpar_ok : ∀ q ∈ d.trace ++
      ((ready_steps d.completed d.pending).filter (fun s => s.parallel)).map
        (fun s => (s, d.completed)), trace_ok q := by
    intro q hq
    rcases List.mem_append.mp hq with h | h
    · exact htr q h
    · obtain ⟨s, hs, rfl⟩ := List.mem_map.mp h
      intro dep hdep
      exact (ready_steps_mem _ _ s (List.mem_filter.mp hs).1).2 dep hdep
  simp only [loop_iter] at hres
  split at hres
  · subst hres
    exact hpar_ok
  · subst hres
    apply sequential_run_trace respond find _ _ hpar_ok
    intro s hs dep hdep
    have hdc : dep ∈ d.completed :=
      (ready_steps_mem _ _ s (List.mem_filter.mp hs).1).2 dep hdep
    obtain ⟨t, ht⟩ := parallel_collect_completed_append
      (parallel_dispatch respond find
        ((ready_steps d.completed d.pending).filter (fun s => s.parallel))
        d.results).1 d.completed d.pending d.errors
    rw [ht]
    exact List.mem_append_left t hdc

lemma workflow_loop_total {α : Type}
    (respond : WorkflowStep → Nat → ServiceResponse α)
    (find : String → Option RegisteredService) :
    ∀ (fuel : Nat) (d : LoopData α), d.pending.length < fuel →
      workflow_loop respond find fuel d ≠ none := by
  intro fuel
  induction fuel with
  | zero => intro d h; exact absurd h (Nat.not_lt_zero _)
  | succ fuel ih =>
      intro d hlen
      rw [workflow_loop]
      by_cases hp : d.pending = []
      · simp [hp]
      · rw [if_neg hp]
        by_cases hr : ready_steps d.completed d.pending = []
        · simp [hr]
        · rw [if_neg hr]
          cases hit : (loop_iter respond find d).2 with
          | some msg => simp [hit]
          | none =>
              simp only [hit]
              apply ih
              have hprog := loop_iter_progress respond find d
                (loop_iter respond find d) rfl hit hr
              omega

lemma workflow_loop_trace {α : Type}
    (respond : WorkflowStep → Nat → ServiceResponse α)
    (find : String → Option RegisteredService) :
    ∀ (fuel : Nat) (d : LoopData α) (out : LoopData α × Option String),
      workflow_loop respond find fuel d = some out →
      (∀ q ∈ d.trace, trace_ok q) →
      ∀ q ∈ out.1.trace, trace_ok q := by
  intro fuel
  induction fuel with
  | zero =>
      intro d out h htr
      exact absurd h (by rw [workflow_loop]; simp)
  | succ fuel ih =>
      intro d out h htr
      rw [workflow_loop] at h
      by_cases hp : d.pending = []
      · rw [if_pos hp] at h
        injection h with h
        rw [← h]
        exact htr
      · rw [if_neg hp] at h
        by_cases hr : ready_steps d.completed d.pending = []
        · rw [if_pos hr] at h
          injection h with h
          rw [← h]
          exact htr
        · rw [if_neg hr] at h
          cases hit : (loop_iter respond find d).2 with
          | some msg =>
              simp only [hit] at h
              injection h with h
              rw [← h]
              exact loop_iter_trace respond find d (loop_iter respond find d)
                rfl htr
          | none =>
              simp only [hit] at h
              exact ih _ out h (loop_iter_trace respond find d
                (loop_iter respond find d) rfl htr)

/-- C1: in every workflow execution, whenever a step is dispatched (its
service request issued), every id in its `depends_on` list is already in the
workflow's completed-step set at that moment — steps enter the ready set
only once all their dependencies completed in earlier iterations. -/
theorem workflow_dispatch_respects_dependencies {α : Type}
    (respond : WorkflowStep → Nat → ServiceResponse α)
    (find : String → Option RegisteredService) (now : Nat)
    (wf : WorkflowExecution α) :
    ∀ q ∈ (execute_workflow_task respond find now wf).2,
      ∀ dep ∈ q.1.depends_on, dep ∈ q.2 := by
  intro q hq
  simp only [execute_workflow_task] at hq
  split at hq
  · exact absurd hq (by simp)
  · next d heq =>
      exact workflow_loop_trace respond find _ _ _ heq (by simp) q hq
  · next d e heq =>
      exact workflow_loop_trace respond find _ _ _ heq (by simp) q hq

/-- C2: the step loop never runs more than `pending + 1` iterations (the
fuelled loop never runs out with that much fuel — each iteration either
raises or removes a pending step); an iteration finding no ready step while
steps remain raises the deadlock error at once; a raising loop leaves the
workflow `FAILED` with the raised error appended to its error list; and
every workflow reaches a terminal `COMPLETED` or `FAILED` status. -/
theorem workflow_loop_terminates_or_fails {α : Type}
    (respond : WorkflowStep → Nat → ServiceResponse α)
    (find : String → Option RegisteredService) :
    (∀ d : LoopData α,
      workflow_loop respond find (d.pending.length + 1) d ≠ none) ∧
    (∀ (fuel : Nat) (d : LoopData α), d.pending ≠ [] →
      ready_steps d.completed d.pending = [] →
      workflow_loop respond find (fuel + 1) d =
        some (d, some deadlock_message)) ∧
    (∀ (now : Nat) (wf : WorkflowExecution α) (d : LoopData α) (e : String),
      workflow_loop respond find ((steps_dict wf.steps).length + 1)
        ⟨[], steps_dict wf.steps, wf.results, wf.errors, []⟩ =
          some (d, some e) →
      (execute_workflow_task respond find now wf).1.status =
        WorkflowStatus.FAILED ∧
      (execute_workflow_task respond find now wf).1.errors =
        d.errors ++ [e] ∧
      (execute_workflow_task respond find now wf).1.completed_at = some now) ∧
    (∀ (now : Nat) (wf : WorkflowExecution α),
      (execute_workflow_task respond find now wf).1.status =
          WorkflowStatus.COMPLETED ∨
        (execute_workflow_task respond find now wf).1.status =
          WorkflowStatus.FAILED) := by
  refine ⟨?_, ?_, ?_, ?_⟩
  · intro d
    exact workflow_loop_total respond find (d.pending.length + 1) d
      (Nat.lt_succ_self _)
  · intro fuel d hp hr
    rw [workflow_loop, if_neg hp, if_pos hr]
  · intro now wf d e h
    simp only [execute_workflow_task]
    rw [h]
    exact ⟨rfl, rfl, rfl⟩
  · intro now wf
    simp only [execute_workflow_task]
    split
    · next heq =>
        exact absurd heq (workflow_loop_total respond find _ _
          (Nat.lt_succ_self _))
    · exact Or.inl rfl
    · exact Or.inr rfl

/-- Step `A` of the two-step demo workflow: no dependencies. -/
def wstepA : WorkflowStep := { step_id := "A" }

/-- Step `B` of the two-step demo workflow: depends on `A`. -/
def wstepB : WorkflowStep := { step_id := "B", depends_on := ["A"] }

/-- A registry lookup resolving every name to one running service. -/
def demo_find : String → Option RegisteredService :=
  fun _ => some
    { service_id := "svc-id"
      name := "svc"
      state := { status := ServiceStatus.RUNNING } }

/-- A response oracle whose every attempt succeeds. -/
def demo_respond : WorkflowStep → Nat → ServiceResponse Nat :=
  fun _ _ => { request_id := "rq", success := true }

/-- The two-step demo workflow `A ← B`. -/
def demo_wf : WorkflowExecution Nat :=
  { workflow_id := "w-demo", steps := [wstepA, wstepB] }

/-- Concrete instance of the dependency-dispatch theorem: in the demo
workflow, step `B` is dispatched with `A` already completed, so `A` is in
the recorded completed set of `B`'s dispatch. -/
theorem workflow_dispatch_respects_dependencies_witness :
    "A" ∈ ((wstepB, ["A"]) : WorkflowStep × List String).2 := by
  have hmem : (wstepB, ["A"]) ∈
      (execute_workflow_task demo_respond demo_find 0 demo_wf).2 := by
    decide
  exact workflow_dispatch_respects_dependencies demo_respond demo_find 0
    demo_wf (wstepB, ["A"]) hmem "A" (by rw [wstepB]; simp)

/-- The cyclic demo workflow: `X` depends on `Y` and `Y` on `X`. -/
def cycle_wf : WorkflowExecution Nat :=
  { workflow_id := "w-cycle",
    steps := [{ step_id := "X", depends_on := ["Y"] },
      { step_id := "Y", depends_on := ["X"] }] }

/-- Concrete instance of the termination/deadlock theorem: the cyclic
workflow finishes `FAILED` with exactly the deadlock error recorded. -/
theorem workflow_loop_terminates_or_fails_witness :
    (execute_workflow_task demo_respond demo_find 5 cycle_wf).1.status =
        WorkflowStatus.FAILED ∧
      (execute_workflow_task demo_respond demo_find 5 cycle_wf).1.errors =
        [deadlock_message] := by
  obtain ⟨h1, h2, h3, h4⟩ :=
    workflow_loop_terminates_or_fails demo_respond demo_find
  have hd := h2 (steps_dict cycle_wf.steps).length
    ⟨[], steps_dict cycle_wf.steps, [], [], []⟩ (by decide) (by decide)
  obtain ⟨hst, herr, _⟩ := h3 5 cycle_wf
    ⟨[], steps_dict cycle_wf.steps, [], [], []⟩ deadlock_message hd
  exact ⟨hst, by rw [herr]; rfl⟩

end TaskgroupAgent
